import Mathlib

/-!
Shallow embedding of `src/src/model/bgem3.py` (class `M3DenseEmbedModel` and
its two inference subclasses).

Real tensors are modelled as nested lists of real numbers: a 2-D tensor of
shape `[b, d]` is a list of `b` rows, each a list of `d` scalars, and a 3-D
tensor of shape `[b, n, d]` is a list of `b` matrices.  Machine floating
point is idealized as `ℝ`.  The exponential and logarithm used inside the
softmax cross-entropy are kept abstract (`expf`, `logf` parameters): the
properties proved below are structural (which logits are built, which target
indices are selected, how batches are split and concatenated) and hold for
every choice of these functions, in particular for the actual `exp`/`log`.

The pretrained transformer encoder is an external collaborator
(`AutoModel.from_pretrained`); following the spec it is modelled as an
abstract per-row function `enc : F → Vec` returning the first-position
(`last_hidden_state[:, 0]`) pooled vector of one tokenized row, so a feature
batch is a `List F` for an abstract row type `F`.  This is exactly the
"pure per-row function" reading stated by the spec's sub-batching claims.
-/

namespace BGEM3

noncomputable section

/-- One embedding vector (a single row of a 2-D tensor). -/
abbrev Vec : Type := List ℝ

/-- A 2-D tensor of shape `[b, d]`: `b` rows of `d` scalars. -/
abbrev Mat : Type := List Vec

/-- A 3-D tensor of shape `[b, n, d]`: `b` stacked matrices. -/
abbrev Ten3 : Type := List Mat

/-- A torch tensor that is either 2-D or 3-D, as distinguished by
`len(p_reps.size())` in `compute_similarity`. -/
inductive Tensor : Type where
  | t2 : Mat → Tensor
  | t3 : Ten3 → Tensor

/-- Dot product of two rows (`torch` inner product along the feature axis). -/
def dot (u v : Vec) : ℝ := (List.zipWith (fun a b => a * b) u v).sum

/-- Matrix product `Q · Pᵗ` (`torch.matmul(q, p.transpose(0, 1))`): entry
`(i, j)` is `dot Q_i P_j`. -/
def matmulT (q p : Mat) : Mat := q.map (fun qi => p.map (fun pj => dot qi pj))

/-- Leading dimension `t.size(0)` of a tensor. -/
def Tensor.size0 : Tensor → ℕ
  | .t2 m => m.length
  | .t3 t => t.length

/-- Row-major flattening of all scalar entries of a tensor, as used by
`Tensor.view`. -/
def Tensor.entries : Tensor → Vec
  | .t2 m => m.flatten
  | .t3 t => (t.map List.flatten).flatten

/-- Elementwise division of every scalar entry by a constant (the
`scores / self.temperature` broadcast). -/
def Tensor.divC : Tensor → ℝ → Tensor
  | .t2 m, c => .t2 (m.map (List.map (fun x => x / c)))
  | .t3 t, c => .t3 (t.map (List.map (List.map (fun x => x / c))))

/-- Fuel-driven chunking helper: structural recursion so that concrete
instances reduce by `rfl`.  With `fuel ≥ l.length` and `s ≥ 1` it splits `l`
into contiguous chunks of size `s`, the last chunk possibly smaller. -/
def chunksAux (fuel s : ℕ) : List α → List (List α)
  | [] => []
  | x :: xs =>
    match fuel with
    | 0 => []
    | fuel + 1 => (x :: xs).take s :: chunksAux fuel s ((x :: xs).drop s)

/-- Contiguous chunks of size `s` of a list, modelling the Python loop
`for i in range(0, len(l), s): l[i : i + s]` (meaningful for `s ≥ 1`;
Python errors out for `s ≤ 0`). -/
def chunks (s : ℕ) (l : List α) : List (List α) := chunksAux l.length s l

/-- Reshape `t.view(n, -1)` of the flattened entries into `n` rows of
`numel / n` scalars each (PyTorch requires `n` to divide the element count;
outside that domain `view` raises, which the claims never exercise). -/
def view (n : ℕ) (v : Vec) : Mat := chunks (v.length / n) v

/-- The fields of `ModelArguments` consumed by `M3DenseEmbedModel.__init__`
(lines 21-26 of `bgem3.py`). -/
structure ModelArguments where
  normlized : Bool
  temperature : ℝ
  encode_sub_batch_size : Option Int

/-- State of a constructed `M3DenseEmbedModel` relevant to the encode /
score / loss operations.  None of the modelled methods ever rewrites these
fields, so the record is immutable for the lifetime of the object. -/
structure M3DenseEmbedModel where
  normlized : Bool
  temperature : ℝ
  sub_batch_size : Option Int

/-- Lines 21-26 of `__init__`: copy the argument fields, then force
`self.temperature = 1.0` whenever `model_args.normlized` is false. -/
def M3DenseEmbedModel.init (args : ModelArguments) : M3DenseEmbedModel :=
  { normlized := args.normlized
    temperature := if args.normlized then args.temperature else 1
    sub_batch_size := args.encode_sub_batch_size }

/-- Lines 100-103, `compute_similarity`: for a 2-D passage tensor this is
`torch.matmul(q, p.transpose(0, 1))`; for a 3-D passage tensor it is
`torch.matmul(q, p.transpose(-2, -1))`, a batched product over the leading
axis of `p` in which the 2-D `q` is broadcast, giving entry
`(j, i, k) = dot Q_i P_{j,k}`. -/
def compute_similarity (q : Mat) (p : Tensor) : Tensor :=
  match p with
  | .t2 m => .t2 (matmulT q m)
  | .t3 t => .t3 (t.map (fun pj => matmulT q pj))

/-- Lines 69-72, `dense_score`: similarity scaled by `1 / temperature`, then
`view(q.size(0), -1)`. -/
def dense_score (M : M3DenseEmbedModel) (q : Mat) (p : Tensor) : Mat :=
  view q.length ((compute_similarity q p).divC M.temperature).entries

/-- Cross entropy of one row of logits against one integer class index:
`logf (Σⱼ expf zⱼ) - z_t`, the standard softmax cross entropy with the
exponential and logarithm abstracted. -/
def rowCE (expf logf : ℝ → ℝ) (z : Vec) (t : ℕ) : ℝ :=
  logf ((z.map expf).sum) - z.getD t 0

/-- Mean-reduced categorical cross entropy over a batch,
`nn.CrossEntropyLoss(reduction='mean')`. -/
def crossEntropy (expf logf : ℝ → ℝ) (logits : Mat) (targets : List ℕ) : ℝ :=
  (List.zipWith (rowCE expf logf) logits targets).sum / (logits.length : ℝ)

/-- Line 106-108: `idxs = arange(q.size(0))`;
`targets = idxs * (p.size(0) // q.size(0))` (integer division). -/
def erl_targets (qn pn : ℕ) : List ℕ :=
  (List.range qn).map (fun i => i * (pn / qn))

/-- Lines 105-112, `entity_reconstruction_loss`. -/
def entity_reconstruction_loss (M : M3DenseEmbedModel) (expf logf : ℝ → ℝ)
    (q : Mat) (p : Tensor) : ℝ :=
  crossEntropy expf logf (dense_score M q p) (erl_targets q.length p.size0)

/-- Group slice `t[:, 0, :]`: the positive member of every group. -/
def pos0 (t : Ten3) : Mat := t.map (fun g => g.headD [])

/-- Group slice `t[:, 1:, :]`: the negative members of every group. -/
def negs (t : Ten3) : Ten3 := t.map List.tail

/-- Elementwise sum of two equally shaped 2-D tensors. -/
def addM (a b : Mat) : Mat := List.zipWith (List.zipWith (fun x y => x + y)) a b

/-- Elementwise difference of two equally shaped 2-D tensors. -/
def subM (a b : Mat) : Mat := List.zipWith (List.zipWith (fun x y => x - y)) a b

/-- Modelled from the spec: the `InfoNCE(negative_mode="paired")` estimator
imported from `src/utils/info_nce.py`, a repository file that is not among
the provided sources.  Spec 4.3: "similarity(anchor, positive) vs
similarity(anchor, each paired negative), softmax cross­-entropy with the
positive as target index 0, temperature-scaled, mean-reduced over the
batch"; row `i` therefore gets logits
`[dot aᵢ pᵢ, dot aᵢ nᵢ₁, …] / τ` and target index `0`. -/
def infoNCE (expf logf : ℝ → ℝ) (τ : ℝ) (anchors positives : Mat)
    (negatives : Ten3) : ℝ :=
  let logits := List.zipWith
    (fun (ap : Vec × Vec) ns => (dot ap.1 ap.2 :: ns.map (dot ap.1)).map (fun x => x / τ))
    (anchors.zip positives) negatives
  crossEntropy expf logf logits (List.replicate logits.length 0)

/-- Lines 114-120, `kg_embed_loss`: forward InfoNCE with anchor
`head_pos + link_desc`, positive `tail_pos`, paired negatives `tail_neg`;
backward InfoNCE with anchor `tail_pos - link_desc`, positive `head_pos`,
paired negatives `head_neg`. -/
def kg_embed_loss (expf logf : ℝ → ℝ) (τ : ℝ)
    (head : Ten3) (link_desc : Mat) (tail : Ten3) : ℝ × ℝ :=
  (infoNCE expf logf τ (addM (pos0 head) link_desc) (pos0 tail) (negs tail),
   infoNCE expf logf τ (subM (pos0 tail) link_desc) (pos0 head) (negs head))

/-- Lines 131-134 of `forward`, after the five inputs have been encoded:
`query = cat([head[:, 0, :], tail[:, 0, :]], dim=0)`,
`passage = cat([head_desc, tail_desc], dim=0)` (still 3-D), and
`loss1 = entity_reconstruction_loss(query, passage)`. -/
def forwardLoss1 (M : M3DenseEmbedModel) (expf logf : ℝ → ℝ)
    (head head_desc tail tail_desc : Ten3) : ℝ :=
  entity_reconstruction_loss M expf logf (pos0 head ++ pos0 tail)
    (Tensor.t3 (head_desc ++ tail_desc))

/-- Lines 122-137, `forward`, modelled after the encoding stage: the three
losses averaged.  The text-to-tensor encoding of the five inputs happens
before this point and is abstracted into the already-encoded arguments. -/
def forward (M : M3DenseEmbedModel) (expf logf : ℝ → ℝ) (τ : ℝ)
    (head head_desc : Ten3) (link_desc : Mat) (tail tail_desc : Ten3) : ℝ :=
  let loss1 := forwardLoss1 M expf logf head head_desc tail tail_desc
  let l23 := kg_embed_loss expf logf τ head link_desc tail
  (loss1 + l23.1 + l23.2) / 3

/-- Follows the spec's words (4.3 composite step 2), for comparison with the
source-translated `forwardLoss1`: "retrieval passage set =
concat(head_desc, tail_desc) along batch axis (each still [b, N, d],
flattened to [b*N, d] for scoring — i.e., r = N)", that is, the passage
tensor handed to the retrieval loss is the 2-D flattening of the
concatenation. -/
def specForwardLoss1 (M : M3DenseEmbedModel) (expf logf : ℝ → ℝ)
    (head head_desc tail tail_desc : Ten3) : ℝ :=
  entity_reconstruction_loss M expf logf (pos0 head ++ pos0 tail)
    (Tensor.t2 (head_desc ++ tail_desc).flatten)

/-- Clamp constant of `torch.nn.functional.normalize` (`eps = 1e-12`). -/
def eps : ℝ := 1 / 10 ^ 12

/-- Sum of squared entries of a row. -/
def sumSq (v : Vec) : ℝ := (v.map (fun x => x * x)).sum

/-- Euclidean norm of a row. -/
def norm2 (v : Vec) : ℝ := Real.sqrt (sumSq v)

/-- Lines 78-79 via `F.normalize(dense_vecs, dim=-1)`: divide a row by
`max(‖v‖₂, eps)`. -/
def normalizeR (v : Vec) : Vec := v.map (fun x => x / max (norm2 v) eps)

/-- Lines 74-80, `_encode`: per-row pooled hidden vectors, L2-normalized when
`self.normlized` is set. -/
def _encode {F : Type} (M : M3DenseEmbedModel) (enc : F → Vec)
    (features : List F) : Mat :=
  let dense_vecs := features.map enc
  if M.normlized then dense_vecs.map normalizeR else dense_vecs

/-- Lines 82-98, `encode`: `None` features short-circuit to `None`; with a
sub-batch size other than `None` and `-1` the batch is chunked, every chunk
encoded independently in order, and the chunk results concatenated
(`torch.cat(all_dense_vecs, 0)`); otherwise one whole-batch `_encode` pass
(the chunked branch is meaningful for positive sizes, Python erroring on
other values, which no claim exercises). -/
def encode {F : Type} (M : M3DenseEmbedModel) (enc : F → Vec)
    (features : Option (List F)) : Option Mat :=
  match features with
  | none => none
  | some feats =>
    match M.sub_batch_size with
    | some s =>
      if s ≠ -1 then some (((chunks s.toNat feats).map (_encode M enc)).flatten)
      else some (_encode M enc feats)
    | none => some (_encode M enc feats)

/-- A formal parameter of a Python function: its keyword name and whether it
carries a default value. -/
structure PyParam where
  name : String
  hasDefault : Bool

/-- CPython call binding for a call with `nPos` positional arguments and the
keyword names `kwargs` against the parameter list `params` (`self`
excluded): binding succeeds iff no excess positional argument exists, every
keyword matches a declared parameter name, no parameter is filled twice, and
every parameter without a default is filled.  A call whose binding fails
raises `TypeError` before the function body runs. -/
def pyCallBindOk (params : List PyParam) (nPos : ℕ) (kwargs : List String) : Bool :=
  decide (nPos ≤ params.length) &&
  kwargs.all (fun k => params.any (fun p => p.name == k)) &&
  kwargs.all (fun k => (params.take nPos).all (fun p => p.name != k)) &&
  (List.range params.length).all (fun i =>
    decide (i < nPos) || (params.getD i ⟨"", false⟩).hasDefault ||
      kwargs.contains (params.getD i ⟨"", false⟩).name)

/-- Line 14: `M3DenseEmbedModel.__init__(self, model_args)` declares the
single parameter `model_args`, without a default. -/
def m3InitParams : List PyParam := [⟨"model_args", false⟩]

/-- Line 82: `encode(self, features=None)` declares the single parameter
`features`, with a default. -/
def encodeParams : List PyParam := [⟨"features", true⟩]

/-- Lines 154-160: keyword names forwarded by `M3ForInference.__init__` to
`super().__init__`. -/
def m3ForInferenceSuperKwargs : List String :=
  ["model_load_args", "normlized", "sentence_pooling_method", "temperature",
   "enable_sub_batch"]

/-- Lines 211-217: keyword names forwarded by `M3ForScore.__init__` to
`super().__init__`. -/
def m3ForScoreSuperKwargs : List String :=
  ["model_load_args", "normlized", "sentence_pooling_method", "temperature",
   "enable_sub_batch"]

/-- Line 193, `M3ForInference.__call__`: `self.encode(inputs, batch_size)`
passes two positional arguments. -/
def inferenceCallEncodeArgc : ℕ := 2

/-- Line 253, `M3ForScore.select_topk`:
`self.encode(documents, self.batch_size)` passes two positional
arguments. -/
def selectTopkEncodeDocsArgc : ℕ := 2

/-- Model state with normalization enabled, temperature 1 and no sub-batch
size, used for concrete instances. -/
def mBase : M3DenseEmbedModel :=
  { normlized := true, temperature := 1, sub_batch_size := none }

/-- Argument record with normalization disabled and a configured temperature
of 5, used for concrete instances. -/
def argsOff : ModelArguments :=
  { normlized := false, temperature := 5, encode_sub_batch_size := none }

/-- Row encoder producing the zero hidden vector. -/
def enc0 : Unit → Vec := fun _ => [0]

/-- Row encoder producing the hidden vector `[3, 4]` (of norm 5). -/
def enc34 : Unit → Vec := fun _ => [3, 4]

/-- Row encoder producing the constant hidden vector `[1]`. -/
def encConst : Unit → Vec := fun _ => [1]

/-! Helper lemmas about chunking, reshaping and normalization. -/

theorem chunksAux_nil (fuel s : ℕ) : chunksAux fuel s ([] : List α) = [] := by
  cases fuel <;> rfl

theorem chunksAux_cons (fuel s : ℕ) (l : List α) (hl : l ≠ []) :
    chunksAux (fuel + 1) s l = l.take s :: chunksAux fuel s (l.drop s) := by
  cases l with
  | nil => exact absurd rfl hl
  | cons x xs => rfl

theorem chunksAux_flatten (s : ℕ) (hs : s ≠ 0) :
    ∀ (fuel : ℕ) (l : List α), l.length ≤ fuel → (chunksAux fuel s l).flatten = l := by
  intro fuel
  induction fuel with
  | zero =>
    intro l hl
    have : l = [] := List.eq_nil_of_length_eq_zero (Nat.le_zero.mp hl)
    simp [this, chunksAux_nil]
  | succ f ih =>
    intro l hl
    by_cases hnil : l = []
    · simp [hnil, chunksAux_nil]
    · rw [chunksAux_cons f s l hnil]
      have hlen : (l.drop s).length ≤ f := by
        have h1 : 0 < l.length := List.length_pos.mpr hnil
        simp only [List.length_drop]
        omega
      simp [List.flatten_cons, ih (l.drop s) hlen, List.take_append_drop]

theorem chunks_flatten (s : ℕ) (hs : s ≠ 0) (l : List α) : (chunks s l).flatten = l :=
  chunksAux_flatten s hs l.length l le_rfl

theorem chunksAux_mem (x : α) :
    ∀ (fuel s : ℕ) (l : List α) (c : List α),
      c ∈ chunksAux fuel s l → x ∈ c → x ∈ l := by
  intro fuel
  induction fuel with
  | zero =>
    intro s l c hc
    cases l with
    | nil => simp [chunksAux_nil] at hc
    | cons a as => simp [chunksAux] at hc
  | succ f ih =>
    intro s l c hc hx
    by_cases hnil : l = []
    · subst hnil; simp [chunksAux_nil] at hc
    · rw [chunksAux_cons f s l hnil] at hc
      rcases List.mem_cons.mp hc with h | h
      · subst h; exact List.mem_of_mem_take hx
      · exact List.mem_of_mem_drop (ih s (l.drop s) c h hx)

theorem chunks_mem (s : ℕ) (l c : List α) (hc : c ∈ chunks s l) (x : α) (hx : x ∈ c) :
    x ∈ l :=
  chunksAux_mem x l.length s l c hc hx

theorem flatten_length_rect (L : List (List α)) (w : ℕ)
    (hrow : ∀ r ∈ L, r.length = w) : L.flatten.length = L.length * w := by
  induction L with
  | nil => simp
  | cons r t ih =>
    have hr : r.length = w := hrow r (List.mem_cons_self r t)
    have ht : ∀ x ∈ t, x.length = w := fun x hx => hrow x (List.mem_cons_of_mem r hx)
    simp [List.length_append, hr, ih ht, Nat.succ_mul, Nat.add_comm]

theorem chunksAux_flatten_rect (w : ℕ) (hw : w ≠ 0) :
    ∀ (L : List (List α)) (fuel : ℕ),
      (∀ r ∈ L, r.length = w) → L.flatten.length ≤ fuel →
      chunksAux fuel w L.flatten = L := by
  intro L
  induction L with
  | nil => intro fuel _ _; simp [chunksAux_nil]
  | cons r t ih =>
    intro fuel hrow hlen
    have hr : r.length = w := hrow r (List.mem_cons_self r t)
    have ht : ∀ x ∈ t, x.length = w := fun x hx => hrow x (List.mem_cons_of_mem r hx)
    have hne : (r :: t).flatten ≠ [] := by
      simp only [List.flatten_cons]
      intro h
      have := congrArg List.length h
      simp [hr] at this
      omega
    cases fuel with
    | zero =>
      exfalso
      simp only [List.flatten_cons, List.length_append, hr] at hlen
      omega
    | succ f =>
      rw [chunksAux_cons f w _ hne]
      simp only [List.flatten_cons]
      rw [List.take_left' hr, List.drop_left' hr]
      congr 1
      apply ih f ht
      simp only [List.flatten_cons, List.length_append, hr] at hlen
      omega

theorem view_of_rect (L : Mat) (b w : ℕ) (hb : b ≠ 0) (hw : w ≠ 0)
    (hL : L.length = b) (hrow : ∀ r ∈ L, r.length = w) : view b L.flatten = L := by
  unfold view chunks
  have hlen : L.flatten.length = b * w := by
    rw [flatten_length_rect L w hrow, hL]
  rw [hlen, Nat.mul_div_cancel_left w (Nat.pos_of_ne_zero hb)]
  exact chunksAux_flatten_rect w hw L (b * w) hrow (le_of_eq hlen)

theorem getD_map_lt {α β : Type} (f : α → β) (d : β) (e : α) :
    ∀ (l : List α) (n : ℕ), n < l.length → (l.map f).getD n d = f (l.getD n e) := by
  intro l
  induction l with
  | nil => intro n hn; simp at hn
  | cons a t ih =>
    intro n hn
    cases n with
    | zero => rfl
    | succ m =>
      simp only [List.map_cons, List.getD_cons_succ]
      exact ih m (by simpa using hn)

theorem matmulT_entry (q p : Mat) (i j : ℕ) (hi : i < q.length) (hj : j < p.length) :
    ((matmulT q p).getD i []).getD j 0 = dot (q.getD i []) (p.getD j []) := by
  unfold matmulT
  rw [getD_map_lt _ [] [] q i hi]
  rw [getD_map_lt _ 0 [] p j hj]

theorem _encode_eq_map {F : Type} (M : M3DenseEmbedModel) (enc : F → Vec) :
    _encode M enc = fun feats =>
      feats.map (fun f => if M.normlized then normalizeR (enc f) else enc f) := by
  funext feats
  unfold _encode
  cases hn : M.normlized with
  | true => simp [List.map_map, Function.comp]
  | false => simp

theorem encode_mem {F : Type} (M : M3DenseEmbedModel) (enc : F → Vec)
    (feats : List F) (out : Mat) (h : encode M enc (some feats) = some out) :
    ∀ v ∈ out, ∃ f ∈ feats, v = (if M.normlized then normalizeR (enc f) else enc f) := by
  intro v hv
  cases hsb : M.sub_batch_size with
  | none =>
    simp only [encode, hsb, Option.some.injEq] at h
    rw [← h, _encode_eq_map] at hv
    obtain ⟨f, hf, hvf⟩ := List.mem_map.mp hv
    exact ⟨f, hf, hvf.symm⟩
  | some s =>
    simp only [encode, hsb] at h
    by_cases hs : s ≠ -1
    · rw [if_pos hs] at h
      simp only [Option.some.injEq] at h
      rw [← h] at hv
      obtain ⟨c', hc', hvc⟩ := List.mem_flatten.mp hv
      obtain ⟨c, hc, hcc⟩ := List.mem_map.mp hc'
      rw [← hcc, _encode_eq_map] at hvc
      obtain ⟨f, hf, hvf⟩ := List.mem_map.mp hvc
      exact ⟨f, chunks_mem _ _ _ hc f hf, hvf.symm⟩
    · rw [if_neg hs] at h
      simp only [Option.some.injEq] at h
      rw [← h, _encode_eq_map] at hv
      obtain ⟨f, hf, hvf⟩ := List.mem_map.mp hv
      exact ⟨f, hf, hvf.symm⟩

theorem sumSq_nonneg (v : Vec) : 0 ≤ sumSq v := by
  apply List.sum_nonneg
  intro x hx
  obtain ⟨y, _, rfl⟩ := List.mem_map.mp hx
  exact mul_self_nonneg y

theorem eps_pos : 0 < eps := by norm_num [eps]

theorem sumSq_map_div (v : Vec) (c : ℝ) :
    sumSq (v.map (fun x => x / c)) = sumSq v / (c * c) := by
  induction v with
  | nil => simp [sumSq]
  | cons a t ih =>
    simp only [sumSq, List.map_cons, List.map_map, List.sum_cons] at ih ⊢
    rw [div_mul_div_comm, ih, add_div]

theorem norm2_normalizeR (v : Vec) (h : eps ≤ norm2 v) : norm2 (normalizeR v) = 1 := by
  have hmax : max (norm2 v) eps = norm2 v := max_eq_left h
  have hpos : 0 < norm2 v := lt_of_lt_of_le eps_pos h
  rw [normalizeR, hmax, norm2, sumSq_map_div, Real.sqrt_div (sumSq_nonneg v),
    Real.sqrt_mul_self (le_of_lt hpos)]
  show norm2 v / norm2 v = 1
  exact div_self (ne_of_gt hpos)

theorem sumSq_34 : sumSq [(3 : ℝ), 4] = 25 := by norm_num [sumSq]

theorem norm2_34 : norm2 [(3 : ℝ), 4] = 5 := by
  rw [norm2, sumSq_34, show (25 : ℝ) = 5 * 5 by norm_num,
    Real.sqrt_mul_self (by norm_num : (0 : ℝ) ≤ 5)]

theorem eps_le_norm2_34 : eps ≤ norm2 [(3 : ℝ), 4] := by
  rw [norm2_34]; norm_num [eps]

/-! Claim theorems. -/

/-- C1 (code bug evidence): in `forward`, the passage tensor handed to
`entity_reconstruction_loss` is the *unflattened* 3-D concatenation of
`head_desc` and `tail_desc`, so with `b = 1, N = 2` its `size(0)` is `2` and
the cross-entropy targets are `[0, 1]`, whereas the flattened `[2b*N, d]`
layout stated by the claim yields targets `[0, N] = [0, 2]`; on the concrete
input below (with the exponential and logarithm instantiated to the
identity) the loss the code computes differs from
`entity_reconstruction_loss` applied to the flattened passage set. -/
theorem c1_forward_passage_not_flattened :
    erl_targets 2 (Tensor.t3 ([[[(3 : ℝ)], [4]]] ++ [[[5], [6]]])).size0 = [0, 1] ∧
    erl_targets 2 (Tensor.t2 (([[[(3 : ℝ)], [4]]] ++ [[[5], [6]]]).flatten)).size0 = [0, 2] ∧
    forwardLoss1 mBase id id [[[1], [9]]] [[[3], [4]]] [[[2], [9]]] [[[5], [6]]] = 45 / 2 ∧
    specForwardLoss1 mBase id id [[[1], [9]]] [[[3], [4]]] [[[2], [9]]] [[[5], [6]]] = 41 / 2 ∧
    forwardLoss1 mBase id id [[[1], [9]]] [[[3], [4]]] [[[2], [9]]] [[[5], [6]]] ≠
      specForwardLoss1 mBase id id [[[1], [9]]] [[[3], [4]]] [[[2], [9]]] [[[5], [6]]] := by
  have h1 : forwardLoss1 mBase id id [[[1], [9]]] [[[3], [4]]] [[[2], [9]]] [[[5], [6]]]
      = 45 / 2 := by
    norm_num [forwardLoss1, entity_reconstruction_loss, dense_score, compute_similarity,
      matmulT, dot, Tensor.divC, Tensor.entries, Tensor.size0, view, chunks, chunksAux,
      erl_targets, crossEntropy, rowCE, pos0, mBase, List.range_succ]
  have h2 : specForwardLoss1 mBase id id [[[1], [9]]] [[[3], [4]]] [[[2], [9]]] [[[5], [6]]]
      = 41 / 2 := by
    norm_num [specForwardLoss1, entity_reconstruction_loss, dense_score, compute_similarity,
      matmulT, dot, Tensor.divC, Tensor.entries, Tensor.size0, view, chunks, chunksAux,
      erl_targets, crossEntropy, rowCE, pos0, mBase, List.range_succ]
  refine ⟨by decide, by decide, h1, h2, ?_⟩
  rw [h1, h2]
  norm_num

/-- C2: for every feature batch and every positive sub-batch size, `encode`
splits the batch into contiguous chunks of that size, encodes them in order
and concatenates, which (the underlying row encoder being a pure per-row
function) equals the single whole-batch pass; the sentinel `-1` also runs a
single whole-batch pass, as does an unset (`None`) sub-batch size. -/
theorem c2_sub_batching_equivalence {F : Type} (M : M3DenseEmbedModel)
    (enc : F → Vec) (feats : List F) (s : Int) (hs : 0 < s) :
    encode { M with sub_batch_size := some s } enc (some feats) =
      encode { M with sub_batch_size := none } enc (some feats) ∧
    encode { M with sub_batch_size := some (-1) } enc (some feats) =
      encode { M with sub_batch_size := none } enc (some feats) := by
  constructor
  · have hs1 : s ≠ -1 := by omega
    have hsn : s.toNat ≠ 0 := by omega
    simp only [encode, if_pos hs1, Option.some.injEq]
    rw [_encode_eq_map, _encode_eq_map, ← List.map_flatten, chunks_flatten _ hsn]
  · rfl

/-- C2 witness: a two-row batch with sub-batch size 1 encodes identically to
the whole-batch pass, and so does sub-batch size `-1`. -/
theorem c2_witness :
    (0 : Int) < 1 ∧
    (encode { mBase with sub_batch_size := some 1 } encConst (some [(), ()]) =
        encode { mBase with sub_batch_size := none } encConst (some [(), ()]) ∧
      encode { mBase with sub_batch_size := some (-1) } encConst (some [(), ()]) =
        encode { mBase with sub_batch_size := none } encConst (some [(), ()])) :=
  ⟨by decide, c2_sub_batching_equivalence mBase encConst [(), ()] 1 (by decide)⟩

/-- C3: for a query batch of `b` rows and a 2-D passage batch of `b * r`
rows (`r` a positive integer), `entity_reconstruction_loss` equals the mean
categorical cross entropy of `score(Q, P)` (the similarity matrix scaled by
`1 / temperature`) against target indices `[0, r, 2r, …, (b-1)r]`. -/
theorem c3_entity_reconstruction_mean_ce (M : M3DenseEmbedModel)
    (expf logf : ℝ → ℝ) (q p : Mat) (b r : ℕ) (hb : 0 < b) (hr : 0 < r)
    (hq : q.length = b) (hp : p.length = b * r) :
    entity_reconstruction_loss M expf logf q (Tensor.t2 p) =
      crossEntropy expf logf
        ((matmulT q p).map (List.map (fun x => x / M.temperature)))
        ((List.range b).map (fun i => i * r)) := by
  unfold entity_reconstruction_loss
  have hscore : dense_score M q (Tensor.t2 p) =
      (matmulT q p).map (List.map (fun x => x / M.temperature)) := by
    simp only [dense_score, compute_similarity, Tensor.divC, Tensor.entries]
    apply view_of_rect _ q.length p.length
    · omega
    · have : 0 < b * r := Nat.mul_pos hb hr
      omega
    · simp [matmulT]
    · intro row hrow
      simp only [matmulT, List.map_map, List.mem_map] at hrow
      obtain ⟨qi, hqi, rfl⟩ := hrow
      simp
  rw [hscore]
  congr 1
  simp only [erl_targets, Tensor.size0]
  rw [hq, hp, Nat.mul_div_cancel_left r hb]

/-- C3 witness: the spec's own example `b = 2, r = 3` with target indices
`[0, 3]`. -/
theorem c3_witness :
    0 < 2 ∧ 0 < 3 ∧ ([[(1 : ℝ)], [0]] : Mat).length = 2 ∧
    ([[(1 : ℝ)], [2], [3], [4], [5], [6]] : Mat).length = 2 * 3 ∧
    entity_reconstruction_loss mBase id id [[(1 : ℝ)], [0]]
        (Tensor.t2 [[(1 : ℝ)], [2], [3], [4], [5], [6]]) =
      crossEntropy id id
        ((matmulT [[(1 : ℝ)], [0]] [[(1 : ℝ)], [2], [3], [4], [5], [6]]).map
          (List.map (fun x => x / mBase.temperature)))
        ((List.range 2).map (fun i => i * 3)) :=
  ⟨by decide, by decide, rfl, rfl,
    c3_entity_reconstruction_mean_ce mBase id id _ _ 2 3 (by decide) (by decide) rfl rfl⟩

/-- C4: `kg_embed_loss` returns the pair whose forward InfoNCE term uses
anchor `head[:,0,:] + link_desc`, positive `tail[:,0,:]` and paired
negatives `tail[:,1:,:]`, and whose backward term uses anchor
`tail[:,0,:] - link_desc`, positive `head[:,0,:]` and paired negatives
`head[:,1:,:]`; consequently replacing the tail negatives (keeping the tail
positives) leaves the backward loss unchanged, and replacing the head
negatives (keeping the head positives) leaves the forward loss unchanged. -/
theorem c4_kg_embed_loss_direction (expf logf : ℝ → ℝ) (τ : ℝ)
    (head head' tail tail' : Ten3) (link_desc : Mat) :
    kg_embed_loss expf logf τ head link_desc tail =
      (infoNCE expf logf τ (addM (pos0 head) link_desc) (pos0 tail) (negs tail),
       infoNCE expf logf τ (subM (pos0 tail) link_desc) (pos0 head) (negs head)) ∧
    (pos0 tail = pos0 tail' →
      (kg_embed_loss expf logf τ head link_desc tail).2 =
        (kg_embed_loss expf logf τ head link_desc tail').2) ∧
    (pos0 head = pos0 head' →
      (kg_embed_loss expf logf τ head link_desc tail).1 =
        (kg_embed_loss expf logf τ head' link_desc tail).1) := by
  refine ⟨rfl, fun h => ?_, fun h => ?_⟩
  · simp only [kg_embed_loss]
    rw [h]
  · simp only [kg_embed_loss]
    rw [h]

/-- C4 witness: a one-row example where the tail group's negative is changed
from `[2]` to `[3]` while its positive `[1]` stays; the backward loss is
unchanged. -/
theorem c4_witness :
    pos0 [[[(1 : ℝ)], [2]]] = pos0 [[[(1 : ℝ)], [3]]] ∧
    (kg_embed_loss id id 1 [[[(4 : ℝ)], [5]]] [[(7 : ℝ)]] [[[(1 : ℝ)], [2]]]).2 =
      (kg_embed_loss id id 1 [[[(4 : ℝ)], [5]]] [[(7 : ℝ)]] [[[(1 : ℝ)], [3]]]).2 :=
  ⟨rfl,
    (c4_kg_embed_loss_direction id id 1 [[[(4 : ℝ)], [5]]] [[[(4 : ℝ)], [6]]]
      [[[(1 : ℝ)], [2]]] [[[(1 : ℝ)], [3]]] [[(7 : ℝ)]]).2.1 rfl⟩

/-- C5 counterexample: with `Q = [[1], [2]]` (`b = 2, d = 1`) and the 3-D
`P = [[[3]], [[5]]]` (`n = 1`), `compute_similarity` returns the 3-D
`[b, b, n]` tensor `[[[3], [6]], [[5], [10]]]`, not the `[b, n]` matrix
`[[3], [10]]` of per-row dot products claimed. -/
theorem c5_counterexample :
    compute_similarity [[(1 : ℝ)], [2]] (Tensor.t3 [[[3]], [[5]]]) =
      Tensor.t3 [[[3], [6]], [[5], [10]]] ∧
    compute_similarity [[(1 : ℝ)], [2]] (Tensor.t3 [[[3]], [[5]]]) ≠
      Tensor.t2 [[3], [10]] := by
  constructor
  · norm_num [compute_similarity, matmulT, dot]
  · intro h
    exact nomatch h

/-- C5 amended: the 2-D case is as claimed (`similarity(Q, P) = Q·Pᵗ`, entry
`(i, j) = Q_i · P_j`), but the 3-D case returns a 3-D tensor with one
`[b_q, n]` matrix per leading index of `P` — entry `(j, i, k)` is
`Q_i · P_{j,k}` — rather than the claimed `[b, n]` matrix of per-row
products `Q_i · P_iᵗ` (those appear only as the diagonal slices
`(i, i, ·)`). -/
theorem c5_similarity_amended (q p2 : Mat) (p3 : Ten3) (i j k : ℕ)
    (hi : i < q.length) (hj2 : j < p2.length) (hj3 : j < p3.length)
    (hk : k < (p3.getD j []).length) :
    ∃ s2 s3, compute_similarity q (Tensor.t2 p2) = Tensor.t2 s2 ∧
      compute_similarity q (Tensor.t3 p3) = Tensor.t3 s3 ∧
      s2.length = q.length ∧
      (s2.getD i []).getD j 0 = dot (q.getD i []) (p2.getD j []) ∧
      s3.length = p3.length ∧
      (s3.getD j []).length = q.length ∧
      ((s3.getD j []).getD i []).getD k 0 =
        dot (q.getD i []) ((p3.getD j []).getD k []) := by
  refine ⟨matmulT q p2, p3.map (fun pj => matmulT q pj), rfl, rfl, by simp [matmulT],
    matmulT_entry q p2 i j hi hj2, by simp, ?_, ?_⟩
  · rw [getD_map_lt _ [] [] p3 j hj3]
    simp [matmulT]
  · rw [getD_map_lt _ [] [] p3 j hj3]
    exact matmulT_entry q (p3.getD j []) i k hi hk

/-- C5 witness: concrete instance of the amended similarity law at
`i = 1, j = 1, k = 0`. -/
theorem c5_witness :
    1 < ([[(1 : ℝ)], [2]] : Mat).length ∧
    1 < ([[(3 : ℝ)], [5]] : Mat).length ∧
    1 < ([[[(3 : ℝ)]], [[5]]] : Ten3).length ∧
    0 < (([[[(3 : ℝ)]], [[5]]] : Ten3).getD 1 []).length ∧
    (∃ s2 s3,
      compute_similarity [[(1 : ℝ)], [2]] (Tensor.t2 [[(3 : ℝ)], [5]]) = Tensor.t2 s2 ∧
      compute_similarity [[(1 : ℝ)], [2]] (Tensor.t3 [[[(3 : ℝ)]], [[5]]]) = Tensor.t3 s3 ∧
      s2.length = ([[(1 : ℝ)], [2]] : Mat).length ∧
      (s2.getD 1 []).getD 1 0 =
        dot (([[(1 : ℝ)], [2]] : Mat).getD 1 []) (([[(3 : ℝ)], [5]] : Mat).getD 1 []) ∧
      s3.length = ([[[(3 : ℝ)]], [[5]]] : Ten3).length ∧
      (s3.getD 1 []).length = ([[(1 : ℝ)], [2]] : Mat).length ∧
      ((s3.getD 1 []).getD 1 []).getD 0 0 =
        dot (([[(1 : ℝ)], [2]] : Mat).getD 1 [])
          ((([[[(3 : ℝ)]], [[5]]] : Ten3).getD 1 []).getD 0 [])) :=
  ⟨by decide, by decide, by decide, by decide,
    c5_similarity_amended [[(1 : ℝ)], [2]] [[(3 : ℝ)], [5]] [[[(3 : ℝ)]], [[5]]] 1 1 0
      (by decide) (by decide) (by decide) (by decide)⟩

/-- C6 counterexample: with normalization enabled, an encode call over a row
encoder whose pooled hidden vector is the zero vector produces the embedding
`[0]`, whose L2 norm is `0`, not `1` (the `eps` clamp of `F.normalize` turns
`0 / max(0, eps)` into `0`), so not every embedding produced by an encode
call has unit norm. -/
theorem c6_counterexample :
    mBase.normlized = true ∧
    encode mBase enc0 (some [()]) = some [[(0 : ℝ)]] ∧
    norm2 [(0 : ℝ)] = 0 ∧ (0 : ℝ) ≠ 1 := by
  refine ⟨rfl, ?_, ?_, by norm_num⟩
  · simp [encode, _encode, mBase, enc0, normalizeR, zero_div]
  · simp [norm2, sumSq, Real.sqrt_zero]

/-- C6 amended: whenever normalization is disabled at construction the
model's temperature is `1` regardless of the configured value (and no
modelled operation ever mutates it), and whenever normalization is enabled
every embedding produced by an encode call whose pooled pre-normalization
vector has L2 norm at least the `eps = 1e-12` clamp of `F.normalize` has L2
norm exactly `1`. -/
theorem c6_norm_temperature_amended {F : Type} (args : ModelArguments)
    (M : M3DenseEmbedModel) (enc : F → Vec) (feats : List F) (out : Mat) :
    (args.normlized = false → (M3DenseEmbedModel.init args).temperature = 1) ∧
    (M.normlized = true → encode M enc (some feats) = some out →
      (∀ f ∈ feats, eps ≤ norm2 (enc f)) → ∀ v ∈ out, norm2 v = 1) := by
  constructor
  · intro h
    simp [M3DenseEmbedModel.init, h]
  · intro hn henc hfeats v hv
    obtain ⟨f, hf, hvf⟩ := encode_mem M enc feats out henc v hv
    rw [hn] at hvf
    simp only [if_true] at hvf
    rw [hvf]
    exact norm2_normalizeR _ (hfeats f hf)

/-- C6 witness: normalization disabled with configured temperature `5`
forces temperature `1`; normalization enabled over the hidden vector
`[3, 4]` (norm `5 ≥ eps`) yields a unit-norm embedding. -/
theorem c6_witness :
    argsOff.normlized = false ∧
    (M3DenseEmbedModel.init argsOff).temperature = 1 ∧
    mBase.normlized = true ∧
    encode mBase enc34 (some [()]) = some [normalizeR [3, 4]] ∧
    (∀ f ∈ [()], eps ≤ norm2 (enc34 f)) ∧
    norm2 (normalizeR [(3 : ℝ), 4]) = 1 := by
  have h34 : ∀ f ∈ [()], eps ≤ norm2 (enc34 f) := fun f _ => eps_le_norm2_34
  have henc : encode mBase enc34 (some [()]) = some [normalizeR [3, 4]] := rfl
  exact ⟨rfl,
    (c6_norm_temperature_amended argsOff mBase enc34 [()] [normalizeR [3, 4]]).1 rfl,
    rfl, henc, h34,
    (c6_norm_temperature_amended argsOff mBase enc34 [()] [normalizeR [3, 4]]).2
      rfl henc h34 (normalizeR [3, 4]) (List.mem_singleton.mpr rfl)⟩

/-- C7 (code bug evidence): `encode` declares the single parameter
`features`, so the one-positional-argument call `self.encode(query)` in
`select_topk` binds, but the two-positional-argument call
`self.encode(documents, self.batch_size)` does not bind and raises
`TypeError` before any top-k result can be produced. -/
theorem c7_select_topk_encode_arity :
    pyCallBindOk encodeParams 1 [] = true ∧
    pyCallBindOk encodeParams selectTopkEncodeDocsArgc [] = false := by decide

/-- C8 (code bug evidence): the call `self.encode(inputs, batch_size)` in
`M3ForInference.__call__` passes two positional arguments to the
one-parameter `encode`, so it does not bind and raises `TypeError` on both
the single-string and the string-list path, before any embedding can be
returned. -/
theorem c8_embed_call_encode_arity :
    pyCallBindOk encodeParams inferenceCallEncodeArgc [] = false := by decide

/-- C9: `encode` called with absent features (`None`) is a no-op returning
the absent result, not an error. -/
theorem c9_encode_none {F : Type} (M : M3DenseEmbedModel) (enc : F → Vec) :
    encode M enc (none : Option (List F)) = none := rfl

/-- C10: the keyword arguments (`model_load_args`, `normlized`,
`sentence_pooling_method`, `temperature`, `enable_sub_batch`) that
`M3ForInference.__init__` and `M3ForScore.__init__` forward to
`M3DenseEmbedModel.__init__` cannot be bound against its single
`model_args` parameter (whatever the argument values), so both constructors
raise `TypeError` at the `super().__init__` call, before the body that
loads the model runs. -/
theorem c10_subclass_init_unbindable :
    pyCallBindOk m3InitParams 0 m3ForInferenceSuperKwargs = false ∧
    pyCallBindOk m3InitParams 0 m3ForScoreSuperKwargs = false := by decide

end

end BGEM3
